import Mathlib

/-!
# Delivery marketplace: order lifecycle and dual-escrow settlement

A shallow embedding of the core state machine of `src/App.tsx`:
orders with competitive bids, the two escrow deposits
(`payStoreEscrow`, `payDeliveryEscrow`), status updates with the
settlement payout on `COMPLETED` (`updateOrderStatus`), and the
reconciliation sweep run on every data refresh (`fetchAndSetData`).

The backend tables (`orders`, `bids`, `wallets`, `transactions`) are
modelled as lists inside a single `AppState`; each user action is a
function on that state, mirroring the sequence of table reads and
writes the source performs.  Database-generated row ids are modelled
by counters in the state.  Monetary amounts are integers.  The UI
`alert` on a failed deposit is modelled by the `EscrowOutcome` value
returned alongside the new state.
-/

namespace DeliveryApp

/-- Modelled from the spec: the `OrderStatus` enum lives in `types.ts`,
which is not part of the provided sources.  §4.3 lists the states
`BIDDING → AWAITING_ESCROW → READY_FOR_PICKUP → (fulfillment
substates, e.g. PICKED_UP/IN_TRANSIT) → COMPLETED`. -/
inductive OrderStatus where
  | BIDDING
  | AWAITING_ESCROW
  | READY_FOR_PICKUP
  | PICKED_UP
  | IN_TRANSIT
  | COMPLETED
  deriving DecidableEq, Repr

/-- Direction of a wallet transaction (`'IN' | 'OUT'` in the source). -/
inductive TxType where
  | IN
  | OUT
  deriving DecidableEq, Repr

/-- A row of the `transactions` table, keyed to its wallet. -/
structure Transaction where
  amount : Int
  type : TxType
  description : String
  deriving DecidableEq, Repr

/-- A row of the `wallets` table: `balance`, `escrow`, plus that user's
transaction rows in timestamp order (list order stands for timestamp
order). -/
structure Wallet where
  balance : Int
  escrow : Int
  transactions : List Transaction
  deriving DecidableEq, Repr

/-- A row of the `bids` table. -/
structure Bid where
  id : Nat
  deliveryGuyId : String
  deliveryGuyName : String
  amount : Int
  deriving DecidableEq, Repr

/-- A row of the `orders` table together with its bids (`select *, bids(*)`). -/
structure Order where
  id : Nat
  storeId : String
  productName : String
  productPrice : Int
  deliveryFeeOffer : Int
  status : OrderStatus
  bids : List Bid
  selectedBidId : Option Nat
  deliveryGuyId : Option String
  storeEscrowPaid : Bool
  deliveryEscrowPaid : Bool
  deriving DecidableEq, Repr

/-- The whole backend state: the `orders` table (bids attached) and the
`wallets` table (transactions attached), plus the id counters standing
for database-generated row ids. -/
structure AppState where
  orders : List Order
  wallets : List (String × Wallet)
  nextOrderId : Nat
  nextBidId : Nat
  deriving DecidableEq, Repr

/-- The empty backend. -/
def initState : AppState := ⟨[], [], 0, 0⟩

/-- `orders.find(o => o.id === orderId)`. -/
def findO (oid : Nat) : List Order → Option Order
  | [] => none
  | o :: rest => if o.id = oid then some o else findO oid rest

/-- `supabase.from('orders').update(...).eq('id', oid)`: rewrite every
row whose id matches. -/
def updO (oid : Nat) (f : Order → Order) : List Order → List Order
  | [] => []
  | o :: rest => (if o.id = oid then f o else o) :: updO oid f rest

/-- `supabase.from('wallets').select('*').eq('user_id', uid).single()`. -/
def lookupW (uid : String) : List (String × Wallet) → Option Wallet
  | [] => none
  | (u, w) :: rest => if u = uid then some w else lookupW uid rest

/-- `supabase.from('wallets').update(...).eq('user_id', uid)`. -/
def updW (uid : String) (f : Wallet → Wallet) :
    List (String × Wallet) → List (String × Wallet)
  | [] => []
  | (u, w) :: rest =>
      (u, if u = uid then f w else w) :: updW uid f rest

/-- `order.bids.find(b => b.id === order.selectedBidId)` (a `null`
`selectedBidId` matches no bid). -/
def findSelBid (sel : Option Nat) : List Bid → Option Bid
  | [] => none
  | b :: rest => if sel = some b.id then some b else findSelBid sel rest

/-- `const fee = selectedBid ? selectedBid.amount : order.deliveryFeeOffer`,
computed identically at escrow-deposit time and at settlement time. -/
def feeOf (o : Order) : Int :=
  match findSelBid o.selectedBidId o.bids with
  | some b => b.amount
  | none => o.deliveryFeeOffer

/-- `order.bids.find(b => b.deliveryGuyId === currentUser.id)`. -/
def findBidBy (uid : String) : List Bid → Option Bid
  | [] => none
  | b :: rest => if b.deliveryGuyId = uid then some b else findBidBy uid rest

/-- `supabase.from('bids').update({proposedFee: amount}).eq('id', bidId)`. -/
def updBidAmount (bidId : Nat) (amount : Int) : List Bid → List Bid
  | [] => []
  | b :: rest =>
      (if b.id = bidId then { b with amount := amount } else b) ::
        updBidAmount bidId amount rest

/-- The wallet write performed by an escrow deposit (lines 282–293 and
313–324): move `amount` from balance into escrow and append the OUT
transaction row. -/
def escrowDebit (amount : Int) (desc : String) (w : Wallet) : Wallet :=
  { w with balance := w.balance - amount, escrow := w.escrow + amount,
           transactions := w.transactions ++
             [{ amount := amount, type := TxType.OUT, description := desc }] }

/-- The wallet write performed by a settlement half (lines 359–370 and
377–388): release `escrowAmount` from escrow, credit `balanceDelta` to
the balance, and append the IN transaction row for `balanceDelta`. -/
def escrowRelease (escrowAmount balanceDelta : Int) (desc : String) (w : Wallet) : Wallet :=
  { w with balance := w.balance + balanceDelta, escrow := w.escrow - escrowAmount,
           transactions := w.transactions ++
             [{ amount := balanceDelta, type := TxType.IN, description := desc }] }

/-- `createOrder`: insert an order in status `BIDDING` with both escrow
flags unset and no selection. -/
def createOrder (storeId productName : String) (productPrice deliveryFee : Int)
    (s : AppState) : AppState :=
  { s with
    orders := s.orders ++
      [{ id := s.nextOrderId, storeId := storeId, productName := productName,
         productPrice := productPrice, deliveryFeeOffer := deliveryFee,
         status := OrderStatus.BIDDING, bids := [], selectedBidId := none,
         deliveryGuyId := none, storeEscrowPaid := false,
         deliveryEscrowPaid := false }],
    nextOrderId := s.nextOrderId + 1 }

/-- `placeBid`: if the courier already has a bid on the order, overwrite
its proposed fee; otherwise insert a new bid row.  The source checks
nothing about the order's status. -/
def placeBid (uid uname : String) (oid : Nat) (amount : Int)
    (s : AppState) : AppState :=
  match findO oid s.orders with
  | none => s
  | some o =>
    match findBidBy uid o.bids with
    | some b =>
        let upd := fun o2 : Order =>
          { o2 with bids := updBidAmount b.id amount o2.bids }
        { s with orders := updO oid upd s.orders }
    | none =>
        let newBid : Bid :=
          { id := s.nextBidId, deliveryGuyId := uid,
            deliveryGuyName := uname, amount := amount }
        let upd := fun o2 : Order => { o2 with bids := o2.bids ++ [newBid] }
        { s with orders := updO oid upd s.orders,
                 nextBidId := s.nextBidId + 1 }

/-- `selectBidder`: record the chosen bid and its courier on the order
and move it to `AWAITING_ESCROW`. -/
def selectBidder (oid bidId : Nat) (s : AppState) : AppState :=
  match findO oid s.orders with
  | none => s
  | some o =>
    match findSelBid (some bidId) o.bids with
    | none => s
    | some b =>
        let upd := fun o2 : Order =>
          { o2 with selectedBidId := some bidId,
                    deliveryGuyId := some b.deliveryGuyId,
                    status := OrderStatus.AWAITING_ESCROW }
        { s with orders := updO oid upd s.orders }

/-- Outcome reported to the UI by an escrow deposit: the source either
`return`s after an "Insufficient balance or wallet not loaded" alert
(also when the order id is unknown it silently `return`s) or completes. -/
inductive EscrowOutcome where
  | ok
  | insufficientFunds
  | notFound
  deriving DecidableEq, Repr

/-- `payStoreEscrow`: debit the acting user's wallet by the computed fee
(guarded by the balance), append the OUT transaction, then re-read the
courier's deposit flag and set `storeDeposited` together with the new
status. -/
def payStoreEscrow (uid : String) (oid : Nat) (s : AppState) :
    EscrowOutcome × AppState :=
  match findO oid s.orders with
  | none => (EscrowOutcome.notFound, s)
  | some o =>
    let fee := feeOf o
    match lookupW uid s.wallets with
    | none => (EscrowOutcome.insufficientFunds, s)
    | some w =>
      if w.balance < fee then (EscrowOutcome.insufficientFunds, s)
      else
        let debit := escrowDebit fee ("Escrow deposit for " ++ o.productName)
        let s1 := { s with wallets := updW uid debit s.wallets }
        let isRiderPaid :=
          match findO oid s1.orders with
          | some o2 => o2.deliveryEscrowPaid
          | none => o.deliveryEscrowPaid
        let newStatus :=
          if isRiderPaid then OrderStatus.READY_FOR_PICKUP
          else OrderStatus.AWAITING_ESCROW
        let upd := fun o2 : Order =>
          { o2 with storeEscrowPaid := true, status := newStatus }
        (EscrowOutcome.ok, { s1 with orders := updO oid upd s1.orders })

/-- `payDeliveryEscrow`: debit the acting user's wallet by the product
price (guarded by the balance), append the OUT transaction, then
re-read the store's deposit flag and set `riderDeposited` together with
the new status. -/
def payDeliveryEscrow (uid : String) (oid : Nat) (s : AppState) :
    EscrowOutcome × AppState :=
  match findO oid s.orders with
  | none => (EscrowOutcome.notFound, s)
  | some o =>
    match lookupW uid s.wallets with
    | none => (EscrowOutcome.insufficientFunds, s)
    | some w =>
      if w.balance < o.productPrice then (EscrowOutcome.insufficientFunds, s)
      else
        let debit := escrowDebit o.productPrice
          ("Product collateral for " ++ o.productName)
        let s1 := { s with wallets := updW uid debit s.wallets }
        let isStorePaid :=
          match findO oid s1.orders with
          | some o2 => o2.storeEscrowPaid
          | none => o.storeEscrowPaid
        let newStatus :=
          if isStorePaid then OrderStatus.READY_FOR_PICKUP
          else OrderStatus.AWAITING_ESCROW
        let upd := fun o2 : Order =>
          { o2 with deliveryEscrowPaid := true, status := newStatus }
        (EscrowOutcome.ok, { s1 with orders := updO oid upd s1.orders })

/-- The store half of the settlement payout (lines 357–371): if the
store wallet exists, credit it with the product price and release the
fee from its escrow, recording one IN transaction of the product
price. -/
def settleStoreW (o : Order) (ws : List (String × Wallet)) :
    List (String × Wallet) :=
  match lookupW o.storeId ws with
  | none => ws
  | some _ =>
      updW o.storeId
        (escrowRelease (feeOf o) o.productPrice
          ("Product payment for " ++ o.productName)) ws

/-- The full payout block of `updateOrderStatus` (lines 343–392) acting
on the wallets table: the store half, then — if a courier is assigned
and its wallet exists — credit the courier wallet with the fee and
release the product price from its escrow, recording one IN
transaction of the fee.  A missing wallet skips that half without
aborting the other. -/
def settleW (o : Order) (ws : List (String × Wallet)) :
    List (String × Wallet) :=
  match o.deliveryGuyId with
  | none => settleStoreW o ws
  | some d =>
    match lookupW d (settleStoreW o ws) with
    | none => settleStoreW o ws
    | some _ =>
        updW d
          (escrowRelease o.productPrice (feeOf o)
            ("Delivery fee payout for " ++ o.productName))
          (settleStoreW o ws)

/-- The settlement engine: the payout block only reads and writes the
`wallets` and `transactions` tables. -/
def settle (o : Order) (s : AppState) : AppState :=
  { s with wallets := settleW o s.wallets }

/-- `updateOrderStatus`: no-op when the target status equals the order's
current status (or the order is unknown); otherwise write the target
status, and when it is `COMPLETED` run the settlement payout computed
from the order as read before the update. -/
def updateOrderStatus (oid : Nat) (status : OrderStatus) (s : AppState) : AppState :=
  match findO oid s.orders with
  | none => s
  | some o =>
    if o.status = status then s
    else
      let s1 := { s with orders := updO oid (fun o2 => { o2 with status := status }) s.orders }
      if status = OrderStatus.COMPLETED then settle o s1 else s1

/-- The self-healing branch of `fetchAndSetData` (lines 110–115) applied
to one order row. -/
def healOrder (o : Order) : Order :=
  if o.status = OrderStatus.AWAITING_ESCROW ∧ o.storeEscrowPaid ∧ o.deliveryEscrowPaid
  then { o with status := OrderStatus.READY_FOR_PICKUP }
  else o

/-- The reconciliation sweep of `fetchAndSetData`: force every order
stuck in `AWAITING_ESCROW` with both deposits present to
`READY_FOR_PICKUP`.  It issues only `orders` updates. -/
def sweepState (s : AppState) : AppState :=
  { s with orders := s.orders.map healOrder }

/-- The wallet-creation branch of the `fetchWallet` effect: insert a
zero wallet for the user if none exists. -/
def getOrCreateWallet (uid : String) (s : AppState) : AppState :=
  match lookupW uid s.wallets with
  | some _ => s
  | none => { s with wallets := s.wallets ++ [(uid, ⟨0, 0, []⟩)] }

/-- One user action against the backend.  Amounts typed into the
creation and bidding forms are nonnegative numerals. -/
inductive Step : AppState → AppState → Prop where
  | createOrder (storeId productName : String) (price fee : Int) (s : AppState)
      (hp : 0 ≤ price) (hf : 0 ≤ fee) :
      Step s (createOrder storeId productName price fee s)
  | placeBid (uid uname : String) (oid : Nat) (amount : Int) (s : AppState)
      (ha : 0 ≤ amount) :
      Step s (placeBid uid uname oid amount s)
  | selectBidder (oid bidId : Nat) (s : AppState) :
      Step s (selectBidder oid bidId s)
  | payStoreEscrow (uid : String) (oid : Nat) (s : AppState) :
      Step s (payStoreEscrow uid oid s).2
  | payDeliveryEscrow (uid : String) (oid : Nat) (s : AppState) :
      Step s (payDeliveryEscrow uid oid s).2
  | updateOrderStatus (oid : Nat) (status : OrderStatus) (s : AppState) :
      Step s (updateOrderStatus oid status s)
  | sweep (s : AppState) : Step s (sweepState s)
  | getOrCreateWallet (uid : String) (s : AppState) :
      Step s (getOrCreateWallet uid s)

/-- States reachable from the empty backend by user actions. -/
def Reachable (s : AppState) : Prop :=
  Relation.ReflTransGen Step initState s

/-- Replay one transaction against a running (balance, escrow) pair:
an OUT row is a debit into escrow, an IN row a release out of escrow. -/
def applyTx (p : Int × Int) (t : Transaction) : Int × Int :=
  match t.type with
  | TxType.IN => (p.1 + t.amount, p.2 - t.amount)
  | TxType.OUT => (p.1 - t.amount, p.2 + t.amount)

/-- Modelled from the spec: replaying all Transactions in timestamp
order from (0,0) (§8) under the ledger semantics of §4.2. -/
def replay (txs : List Transaction) : Int × Int :=
  txs.foldl applyTx (0, 0)

/-! ## Lemmas about the table primitives -/

theorem findO_mem {l : List Order} {oid : Nat} {o : Order}
    (h : findO oid l = some o) : o ∈ l := by
  induction l with
  | nil => simp [findO] at h
  | cons a t ih =>
    rw [findO] at h
    by_cases ha : a.id = oid
    · rw [if_pos ha] at h
      injection h with h
      exact h ▸ List.mem_cons_self a t
    · rw [if_neg ha] at h
      exact List.mem_cons_of_mem a (ih h)

theorem findO_id {l : List Order} {oid : Nat} {o : Order}
    (h : findO oid l = some o) : o.id = oid := by
  induction l with
  | nil => simp [findO] at h
  | cons a t ih =>
    rw [findO] at h
    by_cases ha : a.id = oid
    · rw [if_pos ha] at h
      injection h with h
      exact h ▸ ha
    · rw [if_neg ha] at h
      exact ih h

theorem findSelBid_mem {l : List Bid} {sel : Option Nat} {b : Bid}
    (h : findSelBid sel l = some b) : b ∈ l := by
  induction l with
  | nil => simp [findSelBid] at h
  | cons a t ih =>
    rw [findSelBid] at h
    by_cases ha : sel = some a.id
    · rw [if_pos ha] at h
      injection h with h
      exact h ▸ List.mem_cons_self a t
    · rw [if_neg ha] at h
      exact List.mem_cons_of_mem a (ih h)

theorem findO_updO (oid : Nat) (f : Order → Order) (l : List Order)
    (hid : ∀ o, (f o).id = o.id) :
    findO oid (updO oid f l) = (findO oid l).map f := by
  induction l with
  | nil => rfl
  | cons a t ih =>
    by_cases ha : a.id = oid
    · simp [updO, findO, ha, hid]
    · simp [updO, findO, ha, ih]

theorem findO_updO_ne {oid' oid : Nat} (hne : oid' ≠ oid)
    (f : Order → Order) (l : List Order) (hid : ∀ o, (f o).id = o.id) :
    findO oid' (updO oid f l) = findO oid' l := by
  induction l with
  | nil => rfl
  | cons a t ih =>
    by_cases ha : a.id = oid
    · have hoo : ¬ (oid = oid') := fun hc => hne hc.symm
      simp [updO, findO, ha, hid, hoo, ih]
    · simp [updO, findO, ha, ih]

theorem lookupW_updW (uid : String) (f : Wallet → Wallet)
    (l : List (String × Wallet)) :
    lookupW uid (updW uid f l) = (lookupW uid l).map f := by
  induction l with
  | nil => rfl
  | cons a t ih =>
    obtain ⟨u, w⟩ := a
    by_cases hu : u = uid
    · simp [updW, lookupW, hu]
    · simp [updW, lookupW, hu, ih]

theorem lookupW_updW_ne {uid' uid : String} (hne : uid' ≠ uid)
    (f : Wallet → Wallet) (l : List (String × Wallet)) :
    lookupW uid' (updW uid f l) = lookupW uid' l := by
  induction l with
  | nil => rfl
  | cons a t ih =>
    obtain ⟨u, w⟩ := a
    by_cases hu : u = uid
    · have huu : ¬ (uid = uid') := fun hc => hne hc.symm
      simp [updW, lookupW, hu, huu, ih]
    · simp [updW, lookupW, hu, ih]

theorem updW_forall {P : Wallet → Prop} {uid : String} {f : Wallet → Wallet}
    {l : List (String × Wallet)}
    (h : ∀ p ∈ l, P p.2) (hf : ∀ w, P w → P (f w)) :
    ∀ p ∈ updW uid f l, P p.2 := by
  induction l with
  | nil => intro p hp; simp [updW] at hp
  | cons a t ih =>
    obtain ⟨u, w⟩ := a
    intro p hp
    rw [updW] at hp
    rcases List.mem_cons.mp hp with h1 | h1
    · subst h1
      by_cases hu : u = uid
      · simpa [hu] using hf w (h (u, w) (List.mem_cons_self _ _))
      · simpa [hu] using h (u, w) (List.mem_cons_self _ _)
    · exact ih (fun q hq => h q (List.mem_cons_of_mem _ hq)) p h1

theorem updO_forall {P : Order → Prop} {oid : Nat} {f : Order → Order}
    {l : List Order}
    (h : ∀ o ∈ l, P o) (hf : ∀ o, P o → P (f o)) :
    ∀ o ∈ updO oid f l, P o := by
  induction l with
  | nil => intro o ho; simp [updO] at ho
  | cons a t ih =>
    intro o ho
    by_cases ha : a.id = oid
    · rw [updO, if_pos ha] at ho
      rcases List.mem_cons.mp ho with h1 | h1
      · exact h1 ▸ hf a (h a (List.mem_cons_self _ _))
      · exact ih (fun q hq => h q (List.mem_cons_of_mem _ hq)) o h1
    · rw [updO, if_neg ha] at ho
      rcases List.mem_cons.mp ho with h1 | h1
      · exact h1 ▸ h a (List.mem_cons_self _ _)
      · exact ih (fun q hq => h q (List.mem_cons_of_mem _ hq)) o h1

theorem replay_append (txs : List Transaction) (t : Transaction) :
    replay (txs ++ [t]) = applyTx (replay txs) t := by
  simp [replay, List.foldl_append]

/-! ## Characterizations of the user actions -/

theorem payStoreEscrow_ok {s : AppState} {oid : Nat} {o : Order} {w : Wallet}
    (uid : String)
    (ho : findO oid s.orders = some o)
    (hw : lookupW uid s.wallets = some w)
    (hb : feeOf o ≤ w.balance) :
    payStoreEscrow uid oid s =
      (EscrowOutcome.ok,
        { s with
          wallets := updW uid
            (escrowDebit (feeOf o) ("Escrow deposit for " ++ o.productName))
            s.wallets,
          orders := updO oid (fun o2 =>
            { o2 with storeEscrowPaid := true,
                      status := if o.deliveryEscrowPaid
                        then OrderStatus.READY_FOR_PICKUP
                        else OrderStatus.AWAITING_ESCROW }) s.orders }) := by
  have hnl : ¬ (w.balance < feeOf o) := not_lt.mpr hb
  simp [payStoreEscrow, ho, hw, hnl]

theorem payStoreEscrow_insufficient {s : AppState} {oid : Nat} {o : Order}
    {w : Wallet} (uid : String)
    (ho : findO oid s.orders = some o)
    (hw : lookupW uid s.wallets = some w)
    (hlt : w.balance < feeOf o) :
    payStoreEscrow uid oid s = (EscrowOutcome.insufficientFunds, s) := by
  simp [payStoreEscrow, ho, hw, hlt]

theorem payDeliveryEscrow_ok {s : AppState} {oid : Nat} {o : Order} {w : Wallet}
    (uid : String)
    (ho : findO oid s.orders = some o)
    (hw : lookupW uid s.wallets = some w)
    (hb : o.productPrice ≤ w.balance) :
    payDeliveryEscrow uid oid s =
      (EscrowOutcome.ok,
        { s with
          wallets := updW uid
            (escrowDebit o.productPrice ("Product collateral for " ++ o.productName))
            s.wallets,
          orders := updO oid (fun o2 =>
            { o2 with deliveryEscrowPaid := true,
                      status := if o.storeEscrowPaid
                        then OrderStatus.READY_FOR_PICKUP
                        else OrderStatus.AWAITING_ESCROW }) s.orders }) := by
  have hnl : ¬ (w.balance < o.productPrice) := not_lt.mpr hb
  simp [payDeliveryEscrow, ho, hw, hnl]

theorem payDeliveryEscrow_insufficient {s : AppState} {oid : Nat} {o : Order}
    {w : Wallet} (uid : String)
    (ho : findO oid s.orders = some o)
    (hw : lookupW uid s.wallets = some w)
    (hlt : w.balance < o.productPrice) :
    payDeliveryEscrow uid oid s = (EscrowOutcome.insufficientFunds, s) := by
  simp [payDeliveryEscrow, ho, hw, hlt]

theorem updateOrderStatus_noop {s : AppState} {oid : Nat} {o : Order}
    (st : OrderStatus)
    (ho : findO oid s.orders = some o) (hst : o.status = st) :
    updateOrderStatus oid st s = s := by
  simp [updateOrderStatus, ho, hst]

theorem updateOrderStatus_other {s : AppState} {oid : Nat} {o : Order}
    {st : OrderStatus}
    (ho : findO oid s.orders = some o) (hne : o.status ≠ st)
    (hc : st ≠ OrderStatus.COMPLETED) :
    updateOrderStatus oid st s =
      { s with orders := updO oid (fun o2 => { o2 with status := st }) s.orders } := by
  simp [updateOrderStatus, ho, hne, hc]

theorem updateOrderStatus_completed {s : AppState} {oid : Nat} {o : Order}
    (ho : findO oid s.orders = some o) (hne : o.status ≠ OrderStatus.COMPLETED) :
    updateOrderStatus oid OrderStatus.COMPLETED s =
      settle o
        { s with orders := updO oid
                             (fun o2 => { o2 with status := OrderStatus.COMPLETED })
                             s.orders } := by
  simp [updateOrderStatus, ho, hne]

theorem settle_both {s : AppState} {o : Order} {wS wD : Wallet} {d : String}
    (hd : o.deliveryGuyId = some d)
    (hds : d ≠ o.storeId)
    (hsw : lookupW o.storeId s.wallets = some wS)
    (hrw : lookupW d s.wallets = some wD) :
    settle o s =
      { s with wallets := updW d
                  (escrowRelease o.productPrice (feeOf o)
                    ("Delivery fee payout for " ++ o.productName))
                  (updW o.storeId
                    (escrowRelease (feeOf o) o.productPrice
                      ("Product payment for " ++ o.productName)) s.wallets) } := by
  have hrw2 : lookupW d (updW o.storeId (escrowRelease (feeOf o) o.productPrice
      ("Product payment for " ++ o.productName)) s.wallets) = some wD := by
    rw [lookupW_updW_ne hds]
    exact hrw
  simp [settle, settleW, settleStoreW, hd, hsw, hrw2]

theorem updW_map_fst (uid : String) (f : Wallet → Wallet)
    (l : List (String × Wallet)) :
    (updW uid f l).map Prod.fst = l.map Prod.fst := by
  induction l with
  | nil => rfl
  | cons a t ih =>
    obtain ⟨u, w⟩ := a
    simp [updW, ih]

theorem updW_forall' {P : Wallet → Prop} {uid : String} {f : Wallet → Wallet}
    {l : List (String × Wallet)}
    (h : ∀ p ∈ l, P p.2) (hf : ∀ p ∈ l, p.1 = uid → P (f p.2)) :
    ∀ p ∈ updW uid f l, P p.2 := by
  induction l with
  | nil => intro p hp; simp [updW] at hp
  | cons a t ih =>
    obtain ⟨u, w⟩ := a
    intro p hp
    rw [updW] at hp
    rcases List.mem_cons.mp hp with h1 | h1
    · subst h1
      by_cases hu : u = uid
      · simpa [hu] using hf (u, w) (List.mem_cons_self _ _) hu
      · simpa [hu] using h (u, w) (List.mem_cons_self _ _)
    · exact ih (fun q hq => h q (List.mem_cons_of_mem _ hq))
        (fun q hq hq1 => hf q (List.mem_cons_of_mem _ hq) hq1) p h1

theorem mem_lookupW_of_nodup {l : List (String × Wallet)}
    (hn : (l.map Prod.fst).Nodup) {u : String} {w : Wallet}
    (hm : (u, w) ∈ l) : lookupW u l = some w := by
  induction l with
  | nil => simp at hm
  | cons a t ih =>
    obtain ⟨u0, w0⟩ := a
    have hn' : u0 ∉ t.map Prod.fst ∧ (t.map Prod.fst).Nodup := by
      rw [List.map_cons] at hn
      exact List.nodup_cons.mp hn
    rcases List.mem_cons.mp hm with h1 | h1
    · cases h1
      simp [lookupW]
    · have hu : u0 ≠ u :=
        fun hc => hn'.1 (hc.symm ▸ List.mem_map.mpr ⟨(u, w), h1, rfl⟩)
      rw [lookupW, if_neg hu]
      exact ih hn'.2 h1

theorem settle_store_only {s : AppState} {o : Order} {wS : Wallet}
    (hd : o.deliveryGuyId = none)
    (hsw : lookupW o.storeId s.wallets = some wS) :
    settle o s =
      { s with wallets := updW o.storeId
                  (escrowRelease (feeOf o) o.productPrice
                    ("Product payment for " ++ o.productName)) s.wallets } := by
  simp [settle, settleW, settleStoreW, hd, hsw]

/-! ## Result shapes of the actions -/

theorem payStoreEscrow_cases (uid : String) (oid : Nat) (s : AppState) :
    (payStoreEscrow uid oid s).2 = s ∨
    ∃ o w, findO oid s.orders = some o ∧ lookupW uid s.wallets = some w ∧
      feeOf o ≤ w.balance ∧
      (payStoreEscrow uid oid s).2 =
        { s with
          wallets := updW uid (escrowDebit (feeOf o)
            ("Escrow deposit for " ++ o.productName)) s.wallets,
          orders := updO oid (fun o2 =>
            { o2 with storeEscrowPaid := true,
                      status := if o.deliveryEscrowPaid
                        then OrderStatus.READY_FOR_PICKUP
                        else OrderStatus.AWAITING_ESCROW }) s.orders } := by
  cases hfo : findO oid s.orders with
  | none => left; simp [payStoreEscrow, hfo]
  | some o =>
    cases hw : lookupW uid s.wallets with
    | none => left; simp [payStoreEscrow, hfo, hw]
    | some w =>
      by_cases hb : w.balance < feeOf o
      · left; simp [payStoreEscrow, hfo, hw, hb]
      · right
        refine ⟨o, w, rfl, rfl, le_of_not_lt hb, ?_⟩
        rw [payStoreEscrow_ok uid hfo hw (le_of_not_lt hb)]

theorem payDeliveryEscrow_cases (uid : String) (oid : Nat) (s : AppState) :
    (payDeliveryEscrow uid oid s).2 = s ∨
    ∃ o w, findO oid s.orders = some o ∧ lookupW uid s.wallets = some w ∧
      o.productPrice ≤ w.balance ∧
      (payDeliveryEscrow uid oid s).2 =
        { s with
          wallets := updW uid (escrowDebit o.productPrice
            ("Product collateral for " ++ o.productName)) s.wallets,
          orders := updO oid (fun o2 =>
            { o2 with deliveryEscrowPaid := true,
                      status := if o.storeEscrowPaid
                        then OrderStatus.READY_FOR_PICKUP
                        else OrderStatus.AWAITING_ESCROW }) s.orders } := by
  cases hfo : findO oid s.orders with
  | none => left; simp [payDeliveryEscrow, hfo]
  | some o =>
    cases hw : lookupW uid s.wallets with
    | none => left; simp [payDeliveryEscrow, hfo, hw]
    | some w =>
      by_cases hb : w.balance < o.productPrice
      · left; simp [payDeliveryEscrow, hfo, hw, hb]
      · right
        refine ⟨o, w, rfl, rfl, le_of_not_lt hb, ?_⟩
        rw [payDeliveryEscrow_ok uid hfo hw (le_of_not_lt hb)]

theorem updateOrderStatus_cases (oid : Nat) (st : OrderStatus) (s : AppState) :
    updateOrderStatus oid st s = s ∨
    ∃ o, findO oid s.orders = some o ∧ o.status ≠ st ∧
      ((st ≠ OrderStatus.COMPLETED ∧
         updateOrderStatus oid st s =
           { s with orders := updO oid (fun o2 => { o2 with status := st }) s.orders }) ∨
       (st = OrderStatus.COMPLETED ∧
         updateOrderStatus oid st s =
           settle o
             { s with orders := updO oid (fun o2 => { o2 with status := st }) s.orders })) := by
  cases hfo : findO oid s.orders with
  | none => left; simp [updateOrderStatus, hfo]
  | some o =>
    by_cases hst : o.status = st
    · left; exact updateOrderStatus_noop st hfo hst
    · right
      refine ⟨o, rfl, hst, ?_⟩
      by_cases hc : st = OrderStatus.COMPLETED
      · right
        refine ⟨hc, ?_⟩
        subst hc
        exact updateOrderStatus_completed hfo hst
      · left
        exact ⟨hc, updateOrderStatus_other hfo hst hc⟩

theorem placeBid_cases (uid uname : String) (oid : Nat) (amount : Int)
    (s : AppState) :
    placeBid uid uname oid amount s = s ∨
    (∃ o b, findO oid s.orders = some o ∧ findBidBy uid o.bids = some b ∧
      placeBid uid uname oid amount s =
        { s with orders := updO oid
                             (fun o2 =>
                               { o2 with bids := updBidAmount b.id amount o2.bids })
                             s.orders }) ∨
    (∃ o, findO oid s.orders = some o ∧ findBidBy uid o.bids = none ∧
      placeBid uid uname oid amount s =
        { s with
          orders := updO oid
            (fun o2 => { o2 with bids := o2.bids ++ [{ id := s.nextBidId, deliveryGuyId := uid, deliveryGuyName := uname, amount := amount }] })
            s.orders,
          nextBidId := s.nextBidId + 1 }) := by
  cases hfo : findO oid s.orders with
  | none => left; simp [placeBid, hfo]
  | some o =>
    cases hfb : findBidBy uid o.bids with
    | some b =>
      right; left
      exact ⟨o, b, rfl, hfb, by simp [placeBid, hfo, hfb]⟩
    | none =>
      right; right
      exact ⟨o, rfl, hfb, by simp [placeBid, hfo, hfb]⟩

theorem selectBidder_cases (oid bidId : Nat) (s : AppState) :
    selectBidder oid bidId s = s ∨
    ∃ o b, findO oid s.orders = some o ∧
      findSelBid (some bidId) o.bids = some b ∧
      selectBidder oid bidId s =
        { s with orders := updO oid
                             (fun o2 =>
                               { o2 with selectedBidId := some bidId,
                                         deliveryGuyId := some b.deliveryGuyId,
                                         status := OrderStatus.AWAITING_ESCROW })
                             s.orders } := by
  cases hfo : findO oid s.orders with
  | none => left; simp [selectBidder, hfo]
  | some o =>
    cases hfb : findSelBid (some bidId) o.bids with
    | none => left; simp [selectBidder, hfo, hfb]
    | some b =>
      right
      exact ⟨o, b, rfl, hfb, by simp [selectBidder, hfo, hfb]⟩

theorem getOrCreateWallet_cases (uid : String) (s : AppState) :
    getOrCreateWallet uid s = s ∨
    (lookupW uid s.wallets = none ∧
      getOrCreateWallet uid s =
        { s with wallets := s.wallets ++ [(uid, ⟨0, 0, []⟩)] }) := by
  cases hlk : lookupW uid s.wallets with
  | some w => left; simp [getOrCreateWallet, hlk]
  | none => right; exact ⟨rfl, by simp [getOrCreateWallet, hlk]⟩

theorem settleStoreW_map_fst (o : Order) (ws : List (String × Wallet)) :
    (settleStoreW o ws).map Prod.fst = ws.map Prod.fst := by
  unfold settleStoreW
  cases lookupW o.storeId ws with
  | none => rfl
  | some w => exact updW_map_fst ..

theorem settleW_map_fst (o : Order) (ws : List (String × Wallet)) :
    (settleW o ws).map Prod.fst = ws.map Prod.fst := by
  unfold settleW
  split
  · exact settleStoreW_map_fst ..
  · split
    · exact settleStoreW_map_fst ..
    · rw [updW_map_fst]
      exact settleStoreW_map_fst ..

theorem settleStoreW_forall {P : Wallet → Prop} {o : Order}
    {ws : List (String × Wallet)}
    (h : ∀ p ∈ ws, P p.2)
    (h1 : ∀ w, P w → P (escrowRelease (feeOf o) o.productPrice
      ("Product payment for " ++ o.productName) w)) :
    ∀ p ∈ settleStoreW o ws, P p.2 := by
  unfold settleStoreW
  cases lookupW o.storeId ws with
  | none => exact h
  | some w => exact updW_forall h h1

theorem settleW_forall {P : Wallet → Prop} {o : Order}
    {ws : List (String × Wallet)}
    (h : ∀ p ∈ ws, P p.2)
    (h1 : ∀ w, P w → P (escrowRelease (feeOf o) o.productPrice
      ("Product payment for " ++ o.productName) w))
    (h2 : ∀ w, P w → P (escrowRelease o.productPrice (feeOf o)
      ("Delivery fee payout for " ++ o.productName) w)) :
    ∀ p ∈ settleW o ws, P p.2 := by
  have hws2 := settleStoreW_forall h h1
  unfold settleW
  split
  · exact hws2
  · split
    · exact hws2
    · exact updW_forall hws2 h2

theorem lookupW_none {l : List (String × Wallet)} {uid : String}
    (h : lookupW uid l = none) : uid ∉ l.map Prod.fst := by
  induction l with
  | nil => simp
  | cons a t ih =>
    obtain ⟨u, w⟩ := a
    rw [lookupW] at h
    by_cases hu : u = uid
    · rw [if_pos hu] at h; exact absurd h (by simp)
    · rw [if_neg hu] at h
      simp only [List.map_cons, List.mem_cons]
      rintro (h1 | h1)
      · exact hu h1.symm
      · exact ih h h1

/-! ## Invariants over reachable states -/

/-- All money-bearing fields of an order are nonnegative. -/
def OrderNN (o : Order) : Prop :=
  0 ≤ o.productPrice ∧ 0 ≤ o.deliveryFeeOffer ∧ ∀ b ∈ o.bids, 0 ≤ b.amount

/-- The combined state invariant: the wallets table is keyed uniquely by
user, order amounts are nonnegative, and every wallet balance is
nonnegative. -/
def Inv (s : AppState) : Prop :=
  (s.wallets.map Prod.fst).Nodup ∧
  (∀ o ∈ s.orders, OrderNN o) ∧
  (∀ p ∈ s.wallets, 0 ≤ p.2.balance)

theorem feeOf_nonneg {o : Order} (h : OrderNN o) : 0 ≤ feeOf o := by
  unfold feeOf
  cases hfb : findSelBid o.selectedBidId o.bids with
  | none => exact h.2.1
  | some b => exact h.2.2 b (findSelBid_mem hfb)

theorem updBidAmount_forall {l : List Bid} {bid : Nat} {amount : Int}
    (h : ∀ b ∈ l, 0 ≤ b.amount) (ha : 0 ≤ amount) :
    ∀ b ∈ updBidAmount bid amount l, 0 ≤ b.amount := by
  induction l with
  | nil => intro b hb; simp [updBidAmount] at hb
  | cons a t ih =>
    intro b hb
    rw [updBidAmount] at hb
    rcases List.mem_cons.mp hb with h1 | h1
    · by_cases hid : a.id = bid
      · rw [if_pos hid] at h1; exact h1 ▸ ha
      · rw [if_neg hid] at h1
        exact h1 ▸ h a (List.mem_cons_self _ _)
    · exact ih (fun q hq => h q (List.mem_cons_of_mem _ hq)) b h1

theorem inv_initState : Inv initState := by
  refine ⟨?_, ?_, ?_⟩ <;> simp [initState]

theorem inv_createOrder {s : AppState} (h : Inv s)
    (storeId productName : String) {price fee : Int}
    (hp : 0 ≤ price) (hf : 0 ≤ fee) :
    Inv (createOrder storeId productName price fee s) := by
  obtain ⟨h1, h2, h3⟩ := h
  refine ⟨h1, ?_, h3⟩
  intro o ho
  rcases List.mem_append.mp ho with hm | hm
  · exact h2 o hm
  · rcases List.mem_singleton.mp hm with rfl
    exact ⟨hp, hf, by simp⟩

theorem inv_placeBid {s : AppState} (h : Inv s) (uid uname : String)
    (oid : Nat) {amount : Int} (ha : 0 ≤ amount) :
    Inv (placeBid uid uname oid amount s) := by
  rcases placeBid_cases uid uname oid amount s with hc | ⟨o, b, hfo, hfb, hc⟩ | ⟨o, hfo, hfb, hc⟩
  · rw [hc]
    exact h
  · obtain ⟨h1, h2, h3⟩ := h
    rw [hc]
    refine ⟨h1, ?_, h3⟩
    refine updO_forall h2 ?_
    intro o2 ho2
    exact ⟨ho2.1, ho2.2.1, updBidAmount_forall ho2.2.2 ha⟩
  · obtain ⟨h1, h2, h3⟩ := h
    rw [hc]
    refine ⟨h1, ?_, h3⟩
    refine updO_forall h2 ?_
    intro o2 ho2
    refine ⟨ho2.1, ho2.2.1, ?_⟩
    intro b hb
    rcases List.mem_append.mp hb with hm | hm
    · exact ho2.2.2 b hm
    · rcases List.mem_singleton.mp hm with rfl
      exact ha

theorem inv_selectBidder {s : AppState} (h : Inv s) (oid bidId : Nat) :
    Inv (selectBidder oid bidId s) := by
  rcases selectBidder_cases oid bidId s with hc | ⟨o, b, hfo, hfb, hc⟩
  · rw [hc]
    exact h
  · obtain ⟨h1, h2, h3⟩ := h
    rw [hc]
    refine ⟨h1, ?_, h3⟩
    refine updO_forall h2 ?_
    intro o2 ho2
    exact ⟨ho2.1, ho2.2.1, ho2.2.2⟩

theorem inv_payStoreEscrow {s : AppState} (h : Inv s) (uid : String) (oid : Nat) :
    Inv (payStoreEscrow uid oid s).2 := by
  rcases payStoreEscrow_cases uid oid s with hc | ⟨o, w, hfo, hw, hb, hc⟩
  · rw [hc]
    exact h
  · obtain ⟨h1, h2, h3⟩ := h
    rw [hc]
    refine ⟨by simpa [updW_map_fst] using h1, ?_, ?_⟩
    · refine updO_forall h2 ?_
      intro o2 ho2
      exact ⟨ho2.1, ho2.2.1, ho2.2.2⟩
    · refine updW_forall' (P := fun w => 0 ≤ w.balance) h3 ?_
      intro p hp hpu
      have hmem : (uid, p.2) ∈ s.wallets := by
        rw [← hpu]
        exact hp
      have hlk : lookupW uid s.wallets = some p.2 :=
        mem_lookupW_of_nodup h1 hmem
      have hpw : p.2 = w := by
        rw [hlk] at hw
        exact Option.some.inj hw
      simp [escrowDebit, hpw]
      omega

theorem inv_payDeliveryEscrow {s : AppState} (h : Inv s) (uid : String) (oid : Nat) :
    Inv (payDeliveryEscrow uid oid s).2 := by
  rcases payDeliveryEscrow_cases uid oid s with hc | ⟨o, w, hfo, hw, hb, hc⟩
  · rw [hc]
    exact h
  · obtain ⟨h1, h2, h3⟩ := h
    rw [hc]
    refine ⟨by simpa [updW_map_fst] using h1, ?_, ?_⟩
    · refine updO_forall h2 ?_
      intro o2 ho2
      exact ⟨ho2.1, ho2.2.1, ho2.2.2⟩
    · refine updW_forall' (P := fun w => 0 ≤ w.balance) h3 ?_
      intro p hp hpu
      have hmem : (uid, p.2) ∈ s.wallets := by
        rw [← hpu]
        exact hp
      have hlk : lookupW uid s.wallets = some p.2 :=
        mem_lookupW_of_nodup h1 hmem
      have hpw : p.2 = w := by
        rw [hlk] at hw
        exact Option.some.inj hw
      simp [escrowDebit, hpw]
      omega

theorem inv_settle {s : AppState} {o : Order} (h : Inv s) (hnn : OrderNN o) :
    Inv (settle o s) := by
  obtain ⟨h1, h2, h3⟩ := h
  refine ⟨by simpa [settle, settleW_map_fst] using h1, h2, ?_⟩
  refine settleW_forall (P := fun w => 0 ≤ w.balance) h3 ?_ ?_
  · intro w hw
    simp [escrowRelease]
    have := hnn.1
    omega
  · intro w hw
    simp [escrowRelease]
    have := feeOf_nonneg hnn
    omega

theorem inv_updateOrderStatus {s : AppState} (h : Inv s) (oid : Nat)
    (st : OrderStatus) : Inv (updateOrderStatus oid st s) := by
  rcases updateOrderStatus_cases oid st s with hc | ⟨o, hfo, hst, hc | hc⟩
  · rw [hc]
    exact h
  · obtain ⟨h1, h2, h3⟩ := h
    rw [hc.2]
    refine ⟨h1, ?_, h3⟩
    refine updO_forall h2 ?_
    intro o2 ho2
    exact ⟨ho2.1, ho2.2.1, ho2.2.2⟩
  · obtain ⟨h1, h2, h3⟩ := h
    rw [hc.2]
    have hmid : Inv { s with orders := updO oid (fun o2 => { o2 with status := st }) s.orders } := by
      refine ⟨h1, ?_, h3⟩
      refine updO_forall h2 ?_
      intro o2 ho2
      exact ⟨ho2.1, ho2.2.1, ho2.2.2⟩
    exact inv_settle hmid (h2 o (findO_mem hfo))

theorem inv_sweep {s : AppState} (h : Inv s) : Inv (sweepState s) := by
  obtain ⟨h1, h2, h3⟩ := h
  refine ⟨h1, ?_, h3⟩
  intro o ho
  rcases List.mem_map.mp ho with ⟨o0, ho0, rfl⟩
  have := h2 o0 ho0
  unfold healOrder
  split
  · exact ⟨this.1, this.2.1, this.2.2⟩
  · exact this

theorem inv_getOrCreateWallet {s : AppState} (h : Inv s) (uid : String) :
    Inv (getOrCreateWallet uid s) := by
  rcases getOrCreateWallet_cases uid s with hc | ⟨hlk, hc⟩
  · rw [hc]
    exact h
  · obtain ⟨h1, h2, h3⟩ := h
    rw [hc]
    refine ⟨?_, h2, ?_⟩
    · rw [List.map_append]
      refine List.Nodup.append h1 (by simp) ?_
      intro a ha hb
      simp at hb
      subst hb
      exact lookupW_none hlk ha
    · intro p hp
      rcases List.mem_append.mp hp with hm | hm
      · exact h3 p hm
      · rcases List.mem_singleton.mp hm with rfl
        simp

theorem inv_step {s s' : AppState} (hs : Step s s') (h : Inv s) : Inv s' := by
  cases hs with
  | createOrder storeId productName price fee s hp hf =>
      exact inv_createOrder h storeId productName hp hf
  | placeBid uid uname oid amount s ha => exact inv_placeBid h uid uname oid ha
  | selectBidder oid bidId s => exact inv_selectBidder h oid bidId
  | payStoreEscrow uid oid s => exact inv_payStoreEscrow h uid oid
  | payDeliveryEscrow uid oid s => exact inv_payDeliveryEscrow h uid oid
  | updateOrderStatus oid status s => exact inv_updateOrderStatus h oid status
  | sweep s => exact inv_sweep h
  | getOrCreateWallet uid s => exact inv_getOrCreateWallet h uid

theorem inv_reachable {s : AppState} (h : Reachable s) : Inv s := by
  induction h with
  | refl => exact inv_initState
  | tail hab hbc ih => exact inv_step hbc ih

/-! ## The transaction log reproduces the balance -/

/-- Replaying every wallet's transaction log from zero reproduces its
balance column. -/
def InvReplay (s : AppState) : Prop :=
  ∀ p ∈ s.wallets, (replay p.2.transactions).1 = p.2.balance

theorem replayBal_escrowDebit (a : Int) (d : String) {w : Wallet}
    (h : (replay w.transactions).1 = w.balance) :
    (replay (escrowDebit a d w).transactions).1 = (escrowDebit a d w).balance := by
  simp [escrowDebit, replay_append, applyTx, h]

theorem replayBal_escrowRelease (ea bd : Int) (d : String) {w : Wallet}
    (h : (replay w.transactions).1 = w.balance) :
    (replay (escrowRelease ea bd d w).transactions).1 =
      (escrowRelease ea bd d w).balance := by
  simp [escrowRelease, replay_append, applyTx, h]

theorem invReplay_step {s s' : AppState} (hs : Step s s') (h : InvReplay s) :
    InvReplay s' := by
  cases hs with
  | createOrder storeId productName price fee s hp hf => exact h
  | placeBid uid uname oid amount s ha =>
    rcases placeBid_cases uid uname oid amount s with hc | ⟨o, b, hfo, hfb, hc⟩ | ⟨o, hfo, hfb, hc⟩ <;>
      (rw [hc]; exact h)
  | selectBidder oid bidId s =>
    rcases selectBidder_cases oid bidId s with hc | ⟨o, b, hfo, hfb, hc⟩ <;>
      (rw [hc]; exact h)
  | payStoreEscrow uid oid s =>
    rcases payStoreEscrow_cases uid oid s with hc | ⟨o, w, hfo, hw, hb, hc⟩
    · rw [hc]; exact h
    · rw [hc]
      exact updW_forall (P := fun w => (replay w.transactions).1 = w.balance) h
        (fun w2 hw2 => replayBal_escrowDebit _ _ hw2)
  | payDeliveryEscrow uid oid s =>
    rcases payDeliveryEscrow_cases uid oid s with hc | ⟨o, w, hfo, hw, hb, hc⟩
    · rw [hc]; exact h
    · rw [hc]
      exact updW_forall (P := fun w => (replay w.transactions).1 = w.balance) h
        (fun w2 hw2 => replayBal_escrowDebit _ _ hw2)
  | updateOrderStatus oid status s =>
    rcases updateOrderStatus_cases oid status s with hc | ⟨o, hfo, hst, hc | hc⟩
    · rw [hc]; exact h
    · rw [hc.2]; exact h
    · rw [hc.2]
      exact settleW_forall (P := fun w => (replay w.transactions).1 = w.balance) h
        (fun w2 hw2 => replayBal_escrowRelease _ _ _ hw2)
        (fun w2 hw2 => replayBal_escrowRelease _ _ _ hw2)
  | sweep s => exact h
  | getOrCreateWallet uid s =>
    rcases getOrCreateWallet_cases uid s with hc | ⟨hlk, hc⟩
    · rw [hc]; exact h
    · rw [hc]
      intro p hp
      rcases List.mem_append.mp hp with hm | hm
      · exact h p hm
      · rcases List.mem_singleton.mp hm with rfl
        rfl

theorem invReplay_reachable {s : AppState} (h : Reachable s) : InvReplay s := by
  induction h with
  | refl => intro p hp; simp [initState] at hp
  | tail hab hbc ih => exact invReplay_step hbc ih

/-! ## Concrete fixtures used by witnesses and counterexamples -/

/-- A delivered order: fee 7 from the selected bid, product price 50. -/
def wOrder : Order :=
  { id := 0, storeId := "s", productName := "w", productPrice := 50,
    deliveryFeeOffer := 10, status := OrderStatus.READY_FOR_PICKUP,
    bids := [{ id := 1, deliveryGuyId := "d", deliveryGuyName := "D", amount := 7 }],
    selectedBidId := some 1, deliveryGuyId := some "d",
    storeEscrowPaid := true, deliveryEscrowPaid := true }

/-- Backend state holding `wOrder` with both escrows deposited. -/
def wState : AppState :=
  { orders := [wOrder],
    wallets := [("s", { balance := 93, escrow := 7,
                        transactions := [{ amount := 7, type := TxType.OUT,
                                           description := "Escrow deposit for w" }] }),
                ("d", { balance := 50, escrow := 50,
                        transactions := [{ amount := 50, type := TxType.OUT,
                                           description := "Product collateral for w" }] })],
    nextOrderId := 1, nextBidId := 2 }

/-! ## C1 -/

/-- C1: setting an order to COMPLETED via `updateOrderStatus` performs
exactly two wallet releases: the store wallet's escrow decreases by the
fee (selected bid amount, else the suggested delivery fee) and its
balance increases by the product price, with exactly one IN
Transaction of the product price appended; the courier wallet's escrow
decreases by the product price and its balance increases by the fee,
with exactly one IN Transaction of the fee appended; no other wallet
changes. -/
theorem C1_settlement_two_releases
    (s : AppState) (oid : Nat) (o : Order) (d : String) (wS wD : Wallet)
    (ho : findO oid s.orders = some o)
    (hne : o.status ≠ OrderStatus.COMPLETED)
    (hd : o.deliveryGuyId = some d)
    (hds : d ≠ o.storeId)
    (hsw : lookupW o.storeId s.wallets = some wS)
    (hdw : lookupW d s.wallets = some wD) :
    lookupW o.storeId (updateOrderStatus oid OrderStatus.COMPLETED s).wallets =
      some { wS with
             balance := wS.balance + o.productPrice,
             escrow := wS.escrow - feeOf o,
             transactions := wS.transactions ++ [{ amount := o.productPrice, type := TxType.IN, description := "Product payment for " ++ o.productName }] } ∧
    lookupW d (updateOrderStatus oid OrderStatus.COMPLETED s).wallets =
      some { wD with
             balance := wD.balance + feeOf o,
             escrow := wD.escrow - o.productPrice,
             transactions := wD.transactions ++ [{ amount := feeOf o, type := TxType.IN, description := "Delivery fee payout for " ++ o.productName }] } ∧
    (∀ u, u ≠ o.storeId → u ≠ d →
      lookupW u (updateOrderStatus oid OrderStatus.COMPLETED s).wallets =
        lookupW u s.wallets) := by
  rw [updateOrderStatus_completed ho hne,
    settle_both (s := { s with orders := updO oid (fun o2 => { o2 with status := OrderStatus.COMPLETED }) s.orders }) hd hds hsw hdw]
  refine ⟨?_, ?_, ?_⟩
  · simp only [lookupW_updW_ne (Ne.symm hds), lookupW_updW, hsw,
      Option.map_some]
    rfl
  · simp only [lookupW_updW, lookupW_updW_ne hds, hdw, Option.map_some]
    rfl
  · intro u hu1 hu2
    simp only [lookupW_updW_ne hu2, lookupW_updW_ne hu1]

/-- Witness for C1 at the concrete delivered order. -/
theorem C1_settlement_two_releases_witness :
    lookupW "s" (updateOrderStatus 0 OrderStatus.COMPLETED wState).wallets =
      some { balance := 143, escrow := 0,
             transactions := [{ amount := 7, type := TxType.OUT, description := "Escrow deposit for w" },
                              { amount := 50, type := TxType.IN, description := "Product payment for w" }] } ∧
    lookupW "d" (updateOrderStatus 0 OrderStatus.COMPLETED wState).wallets =
      some { balance := 57, escrow := 0,
             transactions := [{ amount := 50, type := TxType.OUT, description := "Product collateral for w" },
                              { amount := 7, type := TxType.IN, description := "Delivery fee payout for w" }] } := by
  have h := C1_settlement_two_releases wState 0 wOrder "d"
    { balance := 93, escrow := 7,
      transactions := [{ amount := 7, type := TxType.OUT, description := "Escrow deposit for w" }] }
    { balance := 50, escrow := 50,
      transactions := [{ amount := 50, type := TxType.OUT, description := "Product collateral for w" }] }
    rfl (by decide) rfl (by decide) rfl rfl
  exact ⟨h.1, h.2.1⟩

/-! ## C2 -/

/-- A completed order left exactly as settlement wrote it. -/
def doneState : AppState :=
  { orders := [{ wOrder with status := OrderStatus.COMPLETED }],
    wallets := [("s", { balance := 143, escrow := 0,
                        transactions := [{ amount := 7, type := TxType.OUT, description := "Escrow deposit for w" },
                                         { amount := 50, type := TxType.IN, description := "Product payment for w" }] }),
                ("d", { balance := 57, escrow := 0,
                        transactions := [{ amount := 50, type := TxType.OUT, description := "Product collateral for w" },
                                         { amount := 7, type := TxType.IN, description := "Delivery fee payout for w" }] })],
    nextOrderId := 1, nextBidId := 2 }

/-- C2: a status-update request whose target equals the order's current
status is a complete no-op — the state (orders, wallets, transaction
logs) is returned unchanged; in particular re-sending COMPLETED on an
already-completed order re-runs no settlement. -/
theorem C2_status_update_idempotent
    (s : AppState) (oid : Nat) (o : Order) (st : OrderStatus)
    (ho : findO oid s.orders = some o) (hst : o.status = st) :
    updateOrderStatus oid st s = s :=
  updateOrderStatus_noop st ho hst

/-- Witness for C2: forcing COMPLETED on the already-completed order is
a no-op. -/
theorem C2_status_update_idempotent_witness :
    updateOrderStatus 0 OrderStatus.COMPLETED doneState = doneState :=
  C2_status_update_idempotent doneState 0
    { wOrder with status := OrderStatus.COMPLETED }
    OrderStatus.COMPLETED rfl rfl

/-! ## C3 -/

theorem findO_updO_some {oid : Nat} {l : List Order} {o : Order}
    (ho : findO oid l = some o) (f : Order → Order)
    (hid : ∀ o2, (f o2).id = o2.id) :
    findO oid (updO oid f l) = some (f o) := by
  rw [findO_updO oid f l hid, ho]
  rfl

theorem payStoreEscrow_outcome {t : AppState} {uid : String} {oid2 : Nat}
    {o4 : Order} {w4 : Wallet}
    (hcase : findO oid2 t.orders = some o4)
    (hw : lookupW uid t.wallets = some w4) (hb : feeOf o4 ≤ w4.balance) :
    (payStoreEscrow uid oid2 t).1 = EscrowOutcome.ok := by
  rw [payStoreEscrow_ok uid hcase hw hb]

theorem payStoreEscrow_result_wallets {t : AppState} {uid : String} {oid2 : Nat}
    {o4 : Order} {w4 : Wallet}
    (hcase : findO oid2 t.orders = some o4)
    (hw : lookupW uid t.wallets = some w4) (hb : feeOf o4 ≤ w4.balance) :
    (payStoreEscrow uid oid2 t).2.wallets =
      updW uid (escrowDebit (feeOf o4) ("Escrow deposit for " ++ o4.productName))
        t.wallets := by
  rw [payStoreEscrow_ok uid hcase hw hb]

theorem payStoreEscrow_result_order {t : AppState} {uid : String} {oid2 : Nat}
    {o4 : Order} {w4 : Wallet}
    (hcase : findO oid2 t.orders = some o4)
    (hw : lookupW uid t.wallets = some w4) (hb : feeOf o4 ≤ w4.balance) :
    findO oid2 (payStoreEscrow uid oid2 t).2.orders =
      some { o4 with storeEscrowPaid := true,
                     status := if o4.deliveryEscrowPaid
                       then OrderStatus.READY_FOR_PICKUP
                       else OrderStatus.AWAITING_ESCROW } := by
  rw [payStoreEscrow_ok uid hcase hw hb]
  exact findO_updO_some hcase _ (fun _ => rfl)

theorem payDeliveryEscrow_outcome {t : AppState} {uid : String} {oid2 : Nat}
    {o4 : Order} {w4 : Wallet}
    (hcase : findO oid2 t.orders = some o4)
    (hw : lookupW uid t.wallets = some w4) (hb : o4.productPrice ≤ w4.balance) :
    (payDeliveryEscrow uid oid2 t).1 = EscrowOutcome.ok := by
  rw [payDeliveryEscrow_ok uid hcase hw hb]

theorem payDeliveryEscrow_result_wallets {t : AppState} {uid : String}
    {oid2 : Nat} {o4 : Order} {w4 : Wallet}
    (hcase : findO oid2 t.orders = some o4)
    (hw : lookupW uid t.wallets = some w4) (hb : o4.productPrice ≤ w4.balance) :
    (payDeliveryEscrow uid oid2 t).2.wallets =
      updW uid (escrowDebit o4.productPrice
        ("Product collateral for " ++ o4.productName)) t.wallets := by
  rw [payDeliveryEscrow_ok uid hcase hw hb]

theorem payDeliveryEscrow_result_order {t : AppState} {uid : String}
    {oid2 : Nat} {o4 : Order} {w4 : Wallet}
    (hcase : findO oid2 t.orders = some o4)
    (hw : lookupW uid t.wallets = some w4) (hb : o4.productPrice ≤ w4.balance) :
    findO oid2 (payDeliveryEscrow uid oid2 t).2.orders =
      some { o4 with deliveryEscrowPaid := true,
                     status := if o4.storeEscrowPaid
                       then OrderStatus.READY_FOR_PICKUP
                       else OrderStatus.AWAITING_ESCROW } := by
  rw [payDeliveryEscrow_ok uid hcase hw hb]
  exact findO_updO_some hcase _ (fun _ => rfl)

/-- C3: for an order with a selected bid, once both `payStoreEscrow`
and `payDeliveryEscrow` complete — in either of the two orders — the
order's status is `READY_FOR_PICKUP` (with both flags set); and a
successful deposit moves an order to `READY_FOR_PICKUP` only when both
escrow-paid flags are true afterwards. -/
theorem C3_escrow_deposits_commute
    (s : AppState) (oid : Nat) (o : Order) (uS uD : String) (wS wD : Wallet)
    (ho : findO oid s.orders = some o)
    (hsel : o.selectedBidId.isSome = true)
    (hne : uS ≠ uD)
    (hwS : lookupW uS s.wallets = some wS) (hbS : feeOf o ≤ wS.balance)
    (hwD : lookupW uD s.wallets = some wD) (hbD : o.productPrice ≤ wD.balance) :
    (∃ o1, findO oid ((payDeliveryEscrow uD oid (payStoreEscrow uS oid s).2).2).orders = some o1 ∧
      o1.status = OrderStatus.READY_FOR_PICKUP ∧
      o1.storeEscrowPaid = true ∧ o1.deliveryEscrowPaid = true) ∧
    (∃ o2, findO oid ((payStoreEscrow uS oid (payDeliveryEscrow uD oid s).2).2).orders = some o2 ∧
      o2.status = OrderStatus.READY_FOR_PICKUP ∧
      o2.storeEscrowPaid = true ∧ o2.deliveryEscrowPaid = true) ∧
    (∀ t uid oid2 o3, (payStoreEscrow uid oid2 t).1 = EscrowOutcome.ok →
      findO oid2 (payStoreEscrow uid oid2 t).2.orders = some o3 →
      o3.status = OrderStatus.READY_FOR_PICKUP →
      o3.storeEscrowPaid = true ∧ o3.deliveryEscrowPaid = true) ∧
    (∀ t uid oid2 o3, (payDeliveryEscrow uid oid2 t).1 = EscrowOutcome.ok →
      findO oid2 (payDeliveryEscrow uid oid2 t).2.orders = some o3 →
      o3.status = OrderStatus.READY_FOR_PICKUP →
      o3.storeEscrowPaid = true ∧ o3.deliveryEscrowPaid = true) := by
  refine ⟨?_, ?_, ?_, ?_⟩
  · have h1 := payStoreEscrow_result_order ho hwS hbS
    have hwD1 : lookupW uD (payStoreEscrow uS oid s).2.wallets = some wD := by
      rw [payStoreEscrow_result_wallets ho hwS hbS,
        lookupW_updW_ne (Ne.symm hne)]
      exact hwD
    have h2 := payDeliveryEscrow_result_order h1 hwD1 hbD
    exact ⟨_, h2, rfl, rfl, rfl⟩
  · have h1 := payDeliveryEscrow_result_order ho hwD hbD
    have hwS1 : lookupW uS (payDeliveryEscrow uD oid s).2.wallets = some wS := by
      rw [payDeliveryEscrow_result_wallets ho hwD hbD, lookupW_updW_ne hne]
      exact hwS
    have h2 := payStoreEscrow_result_order h1 hwS1 hbS
    exact ⟨_, h2, rfl, rfl, rfl⟩
  · intro t uid oid2 o3 hok hfo hst
    rcases hcase : findO oid2 t.orders with _ | o4
    · simp [payStoreEscrow, hcase] at hok
    · rcases hw : lookupW uid t.wallets with _ | w4
      · simp [payStoreEscrow, hcase, hw] at hok
      · by_cases hb : w4.balance < feeOf o4
        · simp [payStoreEscrow, hcase, hw, hb] at hok
        · rw [payStoreEscrow_result_order hcase hw (le_of_not_lt hb)] at hfo
          injection hfo with hfo
          cases hdep : o4.deliveryEscrowPaid with
          | true =>
            rw [← hfo]
            simp [hdep]
          | false =>
            rw [← hfo] at hst
            simp [hdep] at hst
  · intro t uid oid2 o3 hok hfo hst
    rcases hcase : findO oid2 t.orders with _ | o4
    · simp [payDeliveryEscrow, hcase] at hok
    · rcases hw : lookupW uid t.wallets with _ | w4
      · simp [payDeliveryEscrow, hcase, hw] at hok
      · by_cases hb : w4.balance < o4.productPrice
        · simp [payDeliveryEscrow, hcase, hw, hb] at hok
        · rw [payDeliveryEscrow_result_order hcase hw (le_of_not_lt hb)] at hfo
          injection hfo with hfo
          cases hdep : o4.storeEscrowPaid with
          | true =>
            rw [← hfo]
            simp [hdep]
          | false =>
            rw [← hfo] at hst
            simp [hdep] at hst

/-- An order awaiting both escrow deposits, with funded wallets. -/
def awaitState : AppState :=
  { orders := [{ wOrder with status := OrderStatus.AWAITING_ESCROW,
                              storeEscrowPaid := false,
                              deliveryEscrowPaid := false }],
    wallets := [("s", { balance := 100, escrow := 0, transactions := [] }),
                ("d", { balance := 100, escrow := 0, transactions := [] })],
    nextOrderId := 1, nextBidId := 2 }

/-- Witness for C3: both deposit orders reach `READY_FOR_PICKUP` on the
concrete awaiting order. -/
theorem C3_escrow_deposits_commute_witness :
    (∃ o1, findO 0 ((payDeliveryEscrow "d" 0 (payStoreEscrow "s" 0 awaitState).2).2).orders = some o1 ∧
      o1.status = OrderStatus.READY_FOR_PICKUP ∧
      o1.storeEscrowPaid = true ∧ o1.deliveryEscrowPaid = true) ∧
    (∃ o2, findO 0 ((payStoreEscrow "s" 0 (payDeliveryEscrow "d" 0 awaitState).2).2).orders = some o2 ∧
      o2.status = OrderStatus.READY_FOR_PICKUP ∧
      o2.storeEscrowPaid = true ∧ o2.deliveryEscrowPaid = true) := by
  have h := C3_escrow_deposits_commute awaitState 0
    { wOrder with status := OrderStatus.AWAITING_ESCROW,
                  storeEscrowPaid := false,
                  deliveryEscrowPaid := false }
    "s" "d"
    { balance := 100, escrow := 0, transactions := [] }
    { balance := 100, escrow := 0, transactions := [] }
    rfl rfl (by decide) rfl (by decide) rfl (by decide)
  exact ⟨h.1, h.2.1⟩

/-! ## C4 -/

/-- An order that has left `BIDDING` (it awaits escrow), with no bids. -/
def bidFrozenOrder : Order :=
  { id := 0, storeId := "s", productName := "w", productPrice := 50,
    deliveryFeeOffer := 10, status := OrderStatus.AWAITING_ESCROW,
    bids := [], selectedBidId := none, deliveryGuyId := none,
    storeEscrowPaid := false, deliveryEscrowPaid := false }

/-- Backend state holding `bidFrozenOrder` only. -/
def bidFrozenState : AppState :=
  { orders := [bidFrozenOrder], wallets := [], nextOrderId := 1, nextBidId := 0 }

/-- C4 counterexample: on an order that has left `BIDDING`, `placeBid`
does not fail and does not leave the bid set unchanged — the bid is
inserted. -/
theorem C4_counterexample :
    bidFrozenOrder.status ≠ OrderStatus.BIDDING ∧
    findO 0 bidFrozenState.orders = some bidFrozenOrder ∧
    bidFrozenOrder.bids = [] ∧
    findO 0 (placeBid "c" "C" 0 9 bidFrozenState).orders =
      some { bidFrozenOrder with bids := [{ id := 0, deliveryGuyId := "c", deliveryGuyName := "C", amount := 9 }] } := by
  refine ⟨by decide, rfl, rfl, by decide⟩

/-- C4 (amended): `placeBid` checks nothing about the order's status —
for every order, in any status including ones that have left `BIDDING`,
a courier with no existing bid appends a new bid and a courier with an
existing bid overwrites its amount; no StateConflict failure exists. -/
theorem C4_placeBid_ignores_status
    (s : AppState) (uid uname : String) (oid : Nat) (amount : Int) (o : Order)
    (ho : findO oid s.orders = some o) :
    (findBidBy uid o.bids = none →
      placeBid uid uname oid amount s =
        { s with
          orders := updO oid (fun o2 => { o2 with bids := o2.bids ++ [{ id := s.nextBidId, deliveryGuyId := uid, deliveryGuyName := uname, amount := amount }] }) s.orders,
          nextBidId := s.nextBidId + 1 }) ∧
    (∀ b, findBidBy uid o.bids = some b →
      placeBid uid uname oid amount s =
        { s with orders := updO oid (fun o2 => { o2 with bids := updBidAmount b.id amount o2.bids }) s.orders }) := by
  constructor
  · intro hnb
    simp [placeBid, ho, hnb]
  · intro b hb
    simp [placeBid, ho, hb]

/-- Witness for the amended C4 at the concrete non-`BIDDING` order. -/
theorem C4_placeBid_ignores_status_witness :
    placeBid "c" "C" 0 9 bidFrozenState =
      { bidFrozenState with
        orders := updO 0 (fun o2 => { o2 with bids := o2.bids ++ [{ id := 0, deliveryGuyId := "c", deliveryGuyName := "C", amount := 9 }] }) bidFrozenState.orders,
        nextBidId := 1 } :=
  (C4_placeBid_ignores_status bidFrozenState "c" "C" 0 9 bidFrozenOrder rfl).1 rfl

/-! ## C5 -/

/-- C5: an escrow deposit whose amount exceeds the depositor's balance
fails (insufficient funds) leaving the whole state unchanged;
otherwise it succeeds, moving exactly the amount from balance to
escrow and appending exactly one OUT Transaction, with every other
wallet untouched. -/
theorem C5_escrow_deposit_guarded
    (s : AppState) (uid : String) (oid : Nat) (o : Order) (w : Wallet)
    (ho : findO oid s.orders = some o)
    (hw : lookupW uid s.wallets = some w) :
    (w.balance < feeOf o →
      payStoreEscrow uid oid s = (EscrowOutcome.insufficientFunds, s)) ∧
    (feeOf o ≤ w.balance →
      (payStoreEscrow uid oid s).1 = EscrowOutcome.ok ∧
      lookupW uid (payStoreEscrow uid oid s).2.wallets =
        some { w with balance := w.balance - feeOf o, escrow := w.escrow + feeOf o, transactions := w.transactions ++ [{ amount := feeOf o, type := TxType.OUT, description := "Escrow deposit for " ++ o.productName }] } ∧
      (∀ u, u ≠ uid → lookupW u (payStoreEscrow uid oid s).2.wallets = lookupW u s.wallets)) ∧
    (w.balance < o.productPrice →
      payDeliveryEscrow uid oid s = (EscrowOutcome.insufficientFunds, s)) ∧
    (o.productPrice ≤ w.balance →
      (payDeliveryEscrow uid oid s).1 = EscrowOutcome.ok ∧
      lookupW uid (payDeliveryEscrow uid oid s).2.wallets =
        some { w with balance := w.balance - o.productPrice, escrow := w.escrow + o.productPrice, transactions := w.transactions ++ [{ amount := o.productPrice, type := TxType.OUT, description := "Product collateral for " ++ o.productName }] } ∧
      (∀ u, u ≠ uid → lookupW u (payDeliveryEscrow uid oid s).2.wallets = lookupW u s.wallets)) := by
  refine ⟨?_, ?_, ?_, ?_⟩
  · intro hlt
    exact payStoreEscrow_insufficient uid ho hw hlt
  · intro hb
    refine ⟨payStoreEscrow_outcome ho hw hb, ?_, ?_⟩
    · rw [payStoreEscrow_result_wallets ho hw hb, lookupW_updW, hw]
      rfl
    · intro u hu
      rw [payStoreEscrow_result_wallets ho hw hb, lookupW_updW_ne hu]
  · intro hlt
    exact payDeliveryEscrow_insufficient uid ho hw hlt
  · intro hb
    refine ⟨payDeliveryEscrow_outcome ho hw hb, ?_, ?_⟩
    · rw [payDeliveryEscrow_result_wallets ho hw hb, lookupW_updW, hw]
      rfl
    · intro u hu
      rw [payDeliveryEscrow_result_wallets ho hw hb, lookupW_updW_ne hu]

/-- A store wallet too poor for the 7-unit fee of `wOrder`. -/
def poorState : AppState :=
  { orders := [wOrder],
    wallets := [("s", { balance := 3, escrow := 0, transactions := [] })],
    nextOrderId := 1, nextBidId := 2 }

/-- Witness for C5: the underfunded deposit is rejected unchanged; the
funded deposit succeeds and debits the wallet. -/
theorem C5_escrow_deposit_guarded_witness :
    payStoreEscrow "s" 0 poorState = (EscrowOutcome.insufficientFunds, poorState) ∧
    (payStoreEscrow "s" 0 awaitState).1 = EscrowOutcome.ok ∧
    lookupW "s" (payStoreEscrow "s" 0 awaitState).2.wallets =
      some { balance := 93, escrow := 7, transactions := [{ amount := 7, type := TxType.OUT, description := "Escrow deposit for w" }] } := by
  have h1 := C5_escrow_deposit_guarded poorState "s" 0 wOrder
    { balance := 3, escrow := 0, transactions := [] } rfl rfl
  have h2 := C5_escrow_deposit_guarded awaitState "s" 0
    { wOrder with status := OrderStatus.AWAITING_ESCROW,
                  storeEscrowPaid := false,
                  deliveryEscrowPaid := false }
    { balance := 100, escrow := 0, transactions := [] } rfl rfl
  exact ⟨h1.1 (by decide), (h2.2.1 (by decide)).1, (h2.2.1 (by decide)).2.1⟩

/-! ## C6 and C7: the demo chain reachable from the empty backend -/

/-- The order created in the demo chain (price 50, suggested fee 5). -/
def bidOrder : Order :=
  { id := 0, storeId := "s", productName := "p", productPrice := 50,
    deliveryFeeOffer := 5, status := OrderStatus.BIDDING, bids := [],
    selectedBidId := none, deliveryGuyId := none,
    storeEscrowPaid := false, deliveryEscrowPaid := false }

/-- Reachable state: create the store wallet, then an order. -/
def bidState : AppState :=
  createOrder "s" "p" 50 5 (getOrCreateWallet "s" initState)

/-- Reachable state: force the fresh order straight to COMPLETED. -/
def demoState : AppState :=
  updateOrderStatus 0 OrderStatus.COMPLETED bidState

/-- The store wallet after the demo chain: settlement credited the
product price and released the never-deposited fee from escrow. -/
def demoWallet : Wallet :=
  { balance := 50, escrow := -5,
    transactions := [{ amount := 50, type := TxType.IN,
                       description := "Product payment for p" }] }

theorem bidState_reachable : Reachable bidState :=
  Relation.ReflTransGen.tail
    (Relation.ReflTransGen.tail Relation.ReflTransGen.refl
      (Step.getOrCreateWallet "s" initState))
    (Step.createOrder "s" "p" 50 5 (getOrCreateWallet "s" initState)
      (by decide) (by decide))

theorem demoState_reachable : Reachable demoState :=
  Relation.ReflTransGen.tail bidState_reachable
    (Step.updateOrderStatus 0 OrderStatus.COMPLETED bidState)

/-- C6 counterexample: in the reachable `demoState` the store wallet's
transaction log replays to (50, −50), not to the wallet's actual pair
(50, −5) — the settlement IN transaction records only the balance
credit, not the escrow release. -/
theorem C6_counterexample :
    Reachable demoState ∧
    lookupW "s" demoState.wallets = some demoWallet ∧
    replay demoWallet.transactions ≠ (demoWallet.balance, demoWallet.escrow) :=
  ⟨demoState_reachable, by decide, by decide⟩

/-- C6 (amended): in every reachable state, replaying each wallet's
Transactions in timestamp order from zero reproduces the wallet's
balance; the escrow component is not reproduced in general, because a
settlement IN Transaction records only the balance credit. -/
theorem C6_replay_reproduces_balance (s : AppState) (h : Reachable s) :
    ∀ p ∈ s.wallets, (replay p.2.transactions).1 = p.2.balance :=
  invReplay_reachable h

/-- Witness for the amended C6 on the demo chain wallet. -/
theorem C6_replay_reproduces_balance_witness :
    (replay demoWallet.transactions).1 = demoWallet.balance :=
  C6_replay_reproduces_balance demoState demoState_reachable
    ("s", demoWallet) (by decide)

/-- C7 counterexample: the reachable `demoState` contains a wallet with
escrow −5 < 0 — settlement released a fee that was never deposited. -/
theorem C7_counterexample :
    Reachable demoState ∧
    lookupW "s" demoState.wallets = some demoWallet ∧
    demoWallet.escrow < 0 :=
  ⟨demoState_reachable, by decide, by decide⟩

/-- C7 (amended): in every reachable state every wallet's balance is
nonnegative (a debit that would take balance negative fails before
being recorded); escrow nonnegativity does NOT hold, because a
settlement release is not guarded by the held escrow. -/
theorem C7_balance_nonneg (s : AppState) (h : Reachable s) :
    ∀ p ∈ s.wallets, 0 ≤ p.2.balance :=
  fun p hp => (inv_reachable h).2.2 p hp

/-- Witness for the amended C7 on the demo chain wallet. -/
theorem C7_balance_nonneg_witness : (0 : Int) ≤ demoWallet.balance :=
  C7_balance_nonneg demoState demoState_reachable ("s", demoWallet) (by decide)

/-! ## C8 -/

theorem healOrder_idem (o : Order) : healOrder (healOrder o) = healOrder o := by
  unfold healOrder
  by_cases hcond : o.status = OrderStatus.AWAITING_ESCROW ∧
      o.storeEscrowPaid = true ∧ o.deliveryEscrowPaid = true
  · rw [if_pos hcond, if_neg (by simp)]
  · rw [if_neg hcond, if_neg hcond]

/-- C8: the reconciliation sweep forces every order that is
`AWAITING_ESCROW` with both escrow flags true to `READY_FOR_PICKUP`,
leaves every other order unchanged, touches no wallet (hence triggers
no settlement), and is idempotent. -/
theorem C8_sweep_heals (s : AppState) :
    (∀ o ∈ s.orders, o.status = OrderStatus.AWAITING_ESCROW →
      o.storeEscrowPaid = true → o.deliveryEscrowPaid = true →
      { o with status := OrderStatus.READY_FOR_PICKUP } ∈ (sweepState s).orders) ∧
    (∀ o ∈ s.orders,
      ¬(o.status = OrderStatus.AWAITING_ESCROW ∧ o.storeEscrowPaid = true ∧ o.deliveryEscrowPaid = true) →
      o ∈ (sweepState s).orders) ∧
    (sweepState s).wallets = s.wallets ∧
    sweepState (sweepState s) = sweepState s := by
  refine ⟨?_, ?_, rfl, ?_⟩
  · intro o ho h1 h2 h3
    have he : healOrder o = { o with status := OrderStatus.READY_FOR_PICKUP } := by
      unfold healOrder
      rw [if_pos ⟨h1, h2, h3⟩]
    exact he ▸ List.mem_map_of_mem healOrder ho
  · intro o ho hn
    have he : healOrder o = o := by
      unfold healOrder
      rw [if_neg hn]
    exact he ▸ List.mem_map_of_mem healOrder ho
  · have hcomp : healOrder ∘ healOrder = healOrder := funext healOrder_idem
    have horders : (s.orders.map healOrder).map healOrder = s.orders.map healOrder := by
      rw [List.map_map, hcomp]
    simp only [sweepState]
    rw [horders]

/-- An order stuck in `AWAITING_ESCROW` with both deposits recorded. -/
def stuckState : AppState :=
  { orders := [{ wOrder with status := OrderStatus.AWAITING_ESCROW }],
    wallets := [("s", { balance := 93, escrow := 7, transactions := [] })],
    nextOrderId := 1, nextBidId := 2 }

/-- Witness for C8 on the concrete stuck order. -/
theorem C8_sweep_heals_witness :
    { { wOrder with status := OrderStatus.AWAITING_ESCROW } with status := OrderStatus.READY_FOR_PICKUP } ∈ (sweepState stuckState).orders ∧
    (sweepState stuckState).wallets = stuckState.wallets ∧
    sweepState (sweepState stuckState) = sweepState stuckState := by
  have h := C8_sweep_heals stuckState
  exact ⟨h.1 _ (List.mem_cons_self _ _) rfl rfl rfl, h.2.2.1, h.2.2.2⟩

/-! ## C9 -/

/-- C9: `updateOrderStatus` applies no transition-legality check beyond
"target ≠ current": any different target status is written — and a
direct jump to COMPLETED (here from an order with no courier assigned
and no escrow ever deposited) still runs settlement, crediting the
store wallet and releasing the fee from its (empty) escrow. -/
theorem C9_no_transition_guard
    (s : AppState) (oid : Nat) (o : Order) (st : OrderStatus)
    (ho : findO oid s.orders = some o) (hne : o.status ≠ st) :
    findO oid (updateOrderStatus oid st s).orders = some { o with status := st } ∧
    (st = OrderStatus.COMPLETED → o.deliveryGuyId = none →
      ∀ wS, lookupW o.storeId s.wallets = some wS →
        lookupW o.storeId (updateOrderStatus oid st s).wallets =
          some { wS with balance := wS.balance + o.productPrice, escrow := wS.escrow - feeOf o, transactions := wS.transactions ++ [{ amount := o.productPrice, type := TxType.IN, description := "Product payment for " ++ o.productName }] }) := by
  constructor
  · by_cases hc : st = OrderStatus.COMPLETED
    · subst hc
      rw [updateOrderStatus_completed ho hne]
      exact findO_updO_some ho _ (fun _ => rfl)
    · rw [updateOrderStatus_other ho hne hc]
      exact findO_updO_some ho _ (fun _ => rfl)
  · intro hc hd wS hsw
    subst hc
    have hwallets : (updateOrderStatus oid OrderStatus.COMPLETED s).wallets =
        updW o.storeId (escrowRelease (feeOf o) o.productPrice
          ("Product payment for " ++ o.productName)) s.wallets := by
      rw [updateOrderStatus_completed ho hne,
        settle_store_only (s := { s with orders := updO oid (fun o2 => { o2 with status := OrderStatus.COMPLETED }) s.orders }) hd hsw]
    rw [hwallets, lookupW_updW, hsw]
    rfl

/-- Witness for C9: jumping the fresh `BIDDING` order straight to
COMPLETED writes the status and runs settlement with no escrow ever
deposited. -/
theorem C9_no_transition_guard_witness :
    findO 0 demoState.orders = some { bidOrder with status := OrderStatus.COMPLETED } ∧
    lookupW "s" demoState.wallets = some demoWallet := by
  have h := C9_no_transition_guard bidState 0 bidOrder OrderStatus.COMPLETED
    rfl (by decide)
  exact ⟨h.1, h.2 rfl rfl { balance := 0, escrow := 0, transactions := [] } rfl⟩

/-! ## C10 -/

/-- C10: the escrow deposits check neither the order's status nor the
corresponding escrow-paid flag: with sufficient balance the deposit
always succeeds — debiting the wallet (again) and appending another
OUT Transaction — and merely (re)sets the flag to true. -/
theorem C10_deposits_unguarded
    (s : AppState) (uid : String) (oid : Nat) (o : Order) (w : Wallet)
    (ho : findO oid s.orders = some o)
    (hw : lookupW uid s.wallets = some w) :
    (feeOf o ≤ w.balance →
      (payStoreEscrow uid oid s).1 = EscrowOutcome.ok ∧
      lookupW uid (payStoreEscrow uid oid s).2.wallets =
        some (escrowDebit (feeOf o) ("Escrow deposit for " ++ o.productName) w) ∧
      findO oid (payStoreEscrow uid oid s).2.orders =
        some { o with storeEscrowPaid := true, status := if o.deliveryEscrowPaid then OrderStatus.READY_FOR_PICKUP else OrderStatus.AWAITING_ESCROW }) ∧
    (o.productPrice ≤ w.balance →
      (payDeliveryEscrow uid oid s).1 = EscrowOutcome.ok ∧
      lookupW uid (payDeliveryEscrow uid oid s).2.wallets =
        some (escrowDebit o.productPrice ("Product collateral for " ++ o.productName) w) ∧
      findO oid (payDeliveryEscrow uid oid s).2.orders =
        some { o with deliveryEscrowPaid := true, status := if o.storeEscrowPaid then OrderStatus.READY_FOR_PICKUP else OrderStatus.AWAITING_ESCROW }) := by
  constructor
  · intro hb
    refine ⟨payStoreEscrow_outcome ho hw hb, ?_, payStoreEscrow_result_order ho hw hb⟩
    rw [payStoreEscrow_result_wallets ho hw hb, lookupW_updW, hw]
    rfl
  · intro hb
    refine ⟨payDeliveryEscrow_outcome ho hw hb, ?_, payDeliveryEscrow_result_order ho hw hb⟩
    rw [payDeliveryEscrow_result_wallets ho hw hb, lookupW_updW, hw]
    rfl

/-- Witness for C10: on the already-COMPLETED, already-deposited order
of `doneState`, a second `payStoreEscrow` still succeeds: the store
wallet is debited again (143 → 136), a third OUT Transaction is
appended, the flag stays true — and the status is even overwritten back
to `READY_FOR_PICKUP`. -/
theorem C10_deposits_unguarded_witness :
    (payStoreEscrow "s" 0 doneState).1 = EscrowOutcome.ok ∧
    lookupW "s" (payStoreEscrow "s" 0 doneState).2.wallets =
      some { balance := 136, escrow := 7,
             transactions := [{ amount := 7, type := TxType.OUT, description := "Escrow deposit for w" },
                              { amount := 50, type := TxType.IN, description := "Product payment for w" },
                              { amount := 7, type := TxType.OUT, description := "Escrow deposit for w" }] } ∧
    findO 0 (payStoreEscrow "s" 0 doneState).2.orders =
      some { wOrder with status := OrderStatus.READY_FOR_PICKUP } := by
  have h := (C10_deposits_unguarded doneState "s" 0
    { wOrder with status := OrderStatus.COMPLETED }
    { balance := 143, escrow := 0,
      transactions := [{ amount := 7, type := TxType.OUT, description := "Escrow deposit for w" },
                       { amount := 50, type := TxType.IN, description := "Product payment for w" }] }
    rfl rfl).1 (by decide)
  exact ⟨h.1, h.2.1, h.2.2⟩

end DeliveryApp